import Mathlib

/-!
# Shallow embedding of the Family Budget ledger core

This file embeds the ledger and summary engine of the repository
(`src/api/main.py`, `src/api/models.py`, `src/api/auth.py`) into Lean 4 and
proves properties of the embedded operations.

Modelling conventions:
* Monetary amounts are Python `int` cents and are modelled as `Int`.  The HTTP
  boundary converts a decimal `amount` via `int(round(amount * 100))`; the
  embedded operations take the resulting integer cents directly.
* The relational store (SQLite via SQLModel) is modelled as a record of lists
  of rows, with explicit auto-increment counters for primary keys.  A SQL
  `select ... group_by(direction)` followed by summing the per-direction rows
  is modelled as a filter-and-fold over the row list, which computes the same
  per-direction sums.
* `datetime` values are modelled by calendar fields `(year, month, day, tod)`
  with `tod` the time of day in microseconds; comparison is lexicographic,
  matching Python `datetime` ordering.  `timedelta(days=32)` addition is
  modelled by 32 successive day increments over the proleptic Gregorian
  calendar, which agrees with Python's ordinal-based date arithmetic.
* A raised `HTTPException` is modelled as an `ApiError` value.  Operations
  return `Except ApiError α × Store`, so that rows committed before a later
  raise remain in the store, exactly as with the request-scoped session.
-/

/-- Error taxonomy of the API (`HTTPException` status/detail pairs). -/
inductive ApiError where
  | Unauthorized
  | Forbidden
  | NotFound
  | InvalidInput
  | TypeConflict
  | InsufficientFunds
deriving DecidableEq, Repr

/-- Python `datetime` modelled by calendar fields; `tod` is the time of day in
microseconds (hour/minute/second/microsecond flattened). -/
structure PyDateTime where
  year : Nat
  month : Nat
  day : Nat
  tod : Nat
deriving DecidableEq, Repr

/-- Lexicographic strict comparison, as Python compares `datetime` values. -/
def dtLtB (a b : PyDateTime) : Bool :=
  decide (a.year < b.year) ||
    (a.year == b.year &&
      (decide (a.month < b.month) ||
        (a.month == b.month &&
          (decide (a.day < b.day) ||
            (a.day == b.day && decide (a.tod < b.tod))))))

/-- Lexicographic non-strict comparison on `PyDateTime`. -/
def dtLeB (a b : PyDateTime) : Bool := !(dtLtB b a)

/-- Python `str.strip()`: drop whitespace from both ends. -/
def pyStrip (s : String) : String :=
  ⟨((s.data.dropWhile Char.isWhitespace).reverse.dropWhile Char.isWhitespace).reverse⟩

/-- Python `str.lower()` (ASCII lowering suffices for the literals used). -/
def pyLower (s : String) : String := ⟨s.data.map Char.toLower⟩

instance {ε α : Type} [DecidableEq ε] [DecidableEq α] : DecidableEq (Except ε α)
  | .ok a, .ok b =>
      if h : a = b then isTrue (by rw [h])
      else isFalse (by intro hc; cases hc; exact h rfl)
  | .ok _, .error _ => isFalse (by intro h; cases h)
  | .error _, .ok _ => isFalse (by intro h; cases h)
  | .error e, .error f =>
      if h : e = f then isTrue (by rw [h])
      else isFalse (by intro hc; cases hc; exact h rfl)

/-- Row of the `user` table (`models.py`). -/
structure UserRec where
  id : Nat
  telegram_id : Int
  name : String
  role : String
  is_active : Bool
deriving DecidableEq, Repr

/-- Row of the `category` table (`models.py`): unique name, fixed type. -/
structure CategoryRec where
  id : Nat
  name : String
  type : String
deriving DecidableEq, Repr

/-- Row of the `transaction` table (`models.py`). -/
structure TransactionRec where
  id : Nat
  type : String
  amount_cents : Int
  category_id : Nat
  happened_at : PyDateTime
  note : String
  created_by_telegram_id : Int
deriving DecidableEq, Repr

/-- Row of the `space` table (`models.py`). -/
structure SpaceRec where
  id : Nat
  name : String
  created_at : PyDateTime
deriving DecidableEq, Repr

/-- Row of the `spacetransfer` table (`models.py`). -/
structure SpaceTransferRec where
  id : Nat
  space_id : Nat
  amount_cents : Int
  direction : String
  happened_at : PyDateTime
  note : String
  created_by_telegram_id : Int
deriving DecidableEq, Repr

/-- The relational store: the five tables plus auto-increment counters. -/
structure Store where
  users : List UserRec
  categories : List CategoryRec
  transactions : List TransactionRec
  spaces : List SpaceRec
  transfers : List SpaceTransferRec
  nextCategoryId : Nat
  nextTransactionId : Nat
  nextSpaceId : Nat
  nextTransferId : Nat
deriving DecidableEq, Repr

/-- `ensure_user_allowed` (`main.py`): look the actor up by `telegram_id`;
403 when absent or inactive. -/
def ensureUserAllowed (s : Store) (telegramId : Int) : Except ApiError UserRec :=
  match s.users.find? (fun u => u.telegram_id == telegramId) with
  | none => .error .Forbidden
  | some u => if u.is_active then .ok u else .error .Forbidden

/-- `get_or_create_category` (`main.py`): lookup by unique name; a hit with a
different type is a 400 "Category type mismatch"; a miss creates the row. -/
def getOrCreateCategory (s : Store) (name tx_type : String) :
    Except ApiError CategoryRec × Store :=
  match s.categories.find? (fun c => c.name == name) with
  | some c =>
      if c.type == tx_type then (.ok c, s) else (.error .TypeConflict, s)
  | none =>
      let c : CategoryRec := ⟨s.nextCategoryId, name, tx_type⟩
      (.ok c,
        { s with categories := s.categories ++ [c],
                 nextCategoryId := s.nextCategoryId + 1 })

/-- `get_or_create_space` (`main.py`): lookup by unique name, create on miss.
This path cannot fail.  The created row's `created_at` defaults to the
current time, passed in as `now`. -/
def getOrCreateSpace (s : Store) (name : String) (now : PyDateTime) :
    SpaceRec × Store :=
  match s.spaces.find? (fun sp => sp.name == name) with
  | some sp => (sp, s)
  | none =>
      let sp : SpaceRec := ⟨s.nextSpaceId, name, now⟩
      (sp,
        { s with spaces := s.spaces ++ [sp],
                 nextSpaceId := s.nextSpaceId + 1 })

/-- Per-direction amount sum for one space over a transfer list: the model of
`select(direction, sum(amount_cents)).where(space_id == sid).group_by(direction)`
followed by summing the rows of the given direction. -/
def sumTransfers (ts : List SpaceTransferRec) (sid : Nat) (dir : String) : Int :=
  (ts.filter (fun t => t.space_id == sid && t.direction == dir)).foldl
    (fun acc t => acc + t.amount_cents) 0

/-- A space's derived balance as the code computes it everywhere:
`to_space` sum minus `from_space` sum, all time. -/
def spaceBalanceC (ts : List SpaceTransferRec) (sid : Nat) : Int :=
  sumTransfers ts sid "to_space" - sumTransfers ts sid "from_space"

/-- `create_transaction` (`main.py`): actor check, type normalisation
(`strip().lower()`), category resolution, then insert.  `amount_cents` is the
already-converted integer amount. -/
def createTransaction (s : Store) (telegramId : Int) (type_raw : String)
    (amount_cents : Int) (category_name : String) (happened_at : PyDateTime)
    (note : String) : Except ApiError Nat × Store :=
  match ensureUserAllowed s telegramId with
  | .error e => (.error e, s)
  | .ok _ =>
      let tx_type := pyLower (pyStrip type_raw)
      if tx_type != "income" && tx_type != "expense" then
        (.error .InvalidInput, s)
      else
        match getOrCreateCategory s (pyStrip category_name) tx_type with
        | (.error e, s1) => (.error e, s1)
        | (.ok cat, s1) =>
            let tx : TransactionRec :=
              ⟨s1.nextTransactionId, tx_type, amount_cents, cat.id,
                happened_at, note, telegramId⟩
            (.ok tx.id,
              { s1 with transactions := s1.transactions ++ [tx],
                        nextTransactionId := s1.nextTransactionId + 1 })

/-- `delete_transaction` (`main.py`): actor check, 404 on a missing id, 403
unless admin or creator, else delete the row with that primary key. -/
def deleteTransaction (s : Store) (txId : Nat) (telegramId : Int) :
    Except ApiError Unit × Store :=
  match ensureUserAllowed s telegramId with
  | .error e => (.error e, s)
  | .ok user =>
      match s.transactions.find? (fun t => t.id == txId) with
      | none => (.error .NotFound, s)
      | some tx =>
          if user.role != "admin" && tx.created_by_telegram_id != telegramId then
            (.error .Forbidden, s)
          else
            (.ok (),
              { s with transactions :=
                  s.transactions.filter (fun t => t.id != txId) })

/-- `space_transfer` (`main.py`): actor check, direction validation (note the
code only strips, it does not lowercase), space resolution, solvency check on
`from_space`, then insert. -/
def spaceTransfer (s : Store) (telegramId : Int) (space_name direction_raw : String)
    (amount_cents : Int) (happened_at : PyDateTime) (note : String) :
    Except ApiError Nat × Store :=
  match ensureUserAllowed s telegramId with
  | .error e => (.error e, s)
  | .ok _ =>
      let direction := pyStrip direction_raw
      if direction != "to_space" && direction != "from_space" then
        (.error .InvalidInput, s)
      else
        let (sp, s1) := getOrCreateSpace s (pyStrip space_name) happened_at
        if direction == "from_space" &&
            amount_cents > spaceBalanceC s1.transfers sp.id then
          (.error .InsufficientFunds, s1)
        else
          let tr : SpaceTransferRec :=
            ⟨s1.nextTransferId, sp.id, amount_cents, direction,
              happened_at, note, telegramId⟩
          (.ok tr.id,
            { s1 with transfers := s1.transfers ++ [tr],
                      nextTransferId := s1.nextTransferId + 1 })

/-- One entry of the `/spaces` response, balance kept in cents (the endpoint
divides by 100.0 only at the serialisation boundary). -/
structure SpaceBalanceOut where
  id : Nat
  name : String
  balance_c : Int
deriving DecidableEq, Repr

/-- `list_spaces` (`main.py`): every space with its all-time derived balance. -/
def listSpaces (s : Store) (telegramId : Int) :
    Except ApiError (List SpaceBalanceOut) :=
  match ensureUserAllowed s telegramId with
  | .error e => .error e
  | .ok _ =>
      .ok (s.spaces.map (fun sp => ⟨sp.id, sp.name, spaceBalanceC s.transfers sp.id⟩))

/-- Leap year test of the proleptic Gregorian calendar (as Python's
`datetime` uses). -/
def isLeap (y : Nat) : Bool := y % 4 == 0 && (y % 100 != 0 || y % 400 == 0)

/-- Month lengths of the Gregorian calendar. -/
def daysInMonth (y m : Nat) : Nat :=
  if m == 2 then (if isLeap y then 29 else 28)
  else if m == 4 || m == 6 || m == 9 || m == 11 then 30
  else 31

/-- Advance a `PyDateTime` by one calendar day. -/
def nextDay (d : PyDateTime) : PyDateTime :=
  if d.day < daysInMonth d.year d.month then { d with day := d.day + 1 }
  else if d.month < 12 then ⟨d.year, d.month + 1, 1, d.tod⟩
  else ⟨d.year + 1, 1, 1, d.tod⟩

/-- `d + timedelta(days=n)`: `n` successive day increments. -/
def addDays : Nat → PyDateTime → PyDateTime
  | 0, d => d
  | n + 1, d => addDays n (nextDay d)

/-- Period resolution of `summary` (`main.py` lines 101-108): when either
bound is missing, both are replaced by the current UTC month:
`start = now.replace(day=1, hour=0, minute=0, second=0, microsecond=0)` and
`end = (start + timedelta(days=32)).replace(day=1)`. -/
def summaryPeriod (now : PyDateTime) (startQ endQ : Option PyDateTime) :
    PyDateTime × PyDateTime :=
  match startQ, endQ with
  | some a, some b => (a, b)
  | _, _ =>
      let st : PyDateTime := { now with day := 1, tod := 0 }
      (st, { addDays 32 st with day := 1 })

/-- Membership of a timestamp in the half-open period `[st, en)`. -/
def inPeriodB (st en t : PyDateTime) : Bool := dtLeB st t && dtLtB t en

/-- Cent-level payload of the `/summary` response (`main.py`); the endpoint
divides each total by 100.0 only at the serialisation boundary.  The
`by_category` breakdown carries no claim and is omitted. -/
structure SummaryOut where
  start : PyDateTime
  endD : PyDateTime
  income_total_c : Int
  expense_total_c : Int
  to_space_c : Int
  from_space_c : Int
  cash_balance_c : Int
  spaces_total_c : Int
  total_assets_c : Int
deriving DecidableEq, Repr

/-- `summary` (`main.py`): resolve the period, scan transactions in the period
accumulating income/expense cent totals in one pass, sum period transfers by
direction, derive the cash balance, add all-time space balances to obtain
`spaces_total` and `total_assets`. -/
def summary (s : Store) (telegramId : Int) (startQ endQ : Option PyDateTime)
    (now : PyDateTime) : Except ApiError SummaryOut :=
  match ensureUserAllowed s telegramId with
  | .error e => .error e
  | .ok _ =>
      let (st, en) := summaryPeriod now startQ endQ
      let txs := s.transactions.filter (fun t => inPeriodB st en t.happened_at)
      let totals := txs.foldl
        (fun (p : Int × Int) t =>
          if t.type == "income" then (p.1 + t.amount_cents, p.2)
          else (p.1, p.2 + t.amount_cents))
        (0, 0)
      let income_total_c := totals.1
      let expense_total_c := totals.2
      let trs := s.transfers.filter (fun t => inPeriodB st en t.happened_at)
      let to_space_c := (trs.filter (fun t => t.direction == "to_space")).foldl
        (fun acc t => acc + t.amount_cents) 0
      let from_space_c := (trs.filter (fun t => t.direction == "from_space")).foldl
        (fun acc t => acc + t.amount_cents) 0
      let cash_balance_c := (income_total_c - expense_total_c) - to_space_c + from_space_c
      let spaces_total_c := s.spaces.foldl
        (fun acc sp => acc + spaceBalanceC s.transfers sp.id) 0
      let total_assets_c := cash_balance_c + spaces_total_c
      .ok ⟨st, en, income_total_c, expense_total_c, to_space_c, from_space_c,
        cash_balance_c, spaces_total_c, total_assets_c⟩

/-- `require_admin` (`auth.py`): `if not ADMIN_TOKEN or x_admin_token !=
ADMIN_TOKEN: raise 401`.  A missing header is `none`; `not ADMIN_TOKEN` is
emptiness of the configured token. -/
def requireAdmin (adminToken : String) (xAdminToken : Option String) :
    Except ApiError Unit :=
  if adminToken == "" || xAdminToken != some adminToken then .error .Unauthorized
  else .ok ()

/-- `admin_upsert_user` (`main.py`) guarded by the `require_admin` dependency:
update the user with the given `telegram_id` or insert a new one. -/
def adminUpsertUser (adminToken : String) (xAdminToken : Option String)
    (s : Store) (telegramId : Int) (name : String) (isActive : Bool)
    (role : String) : Except ApiError Unit × Store :=
  match requireAdmin adminToken xAdminToken with
  | .error e => (.error e, s)
  | .ok _ =>
      match s.users.find? (fun u => u.telegram_id == telegramId) with
      | some u =>
          (.ok (),
            { s with users := s.users.map (fun v =>
                if v.id == u.id then { v with name := name, is_active := isActive, role := role }
                else v) })
      | none =>
          (.ok (),
            { s with users := s.users ++
                [⟨s.users.length, telegramId, name, role, isActive⟩] })

/-- One `create_space_transfer` request, amounts already in integer cents. -/
structure TransferReq where
  telegramId : Int
  space_name : String
  direction : String
  amount_cents : Int
  happened_at : PyDateTime
  note : String
deriving DecidableEq, Repr

/-- Apply one serialized `space_transfer` request; a failed request leaves the
resulting store exactly as the endpoint leaves it. -/
def applyTransfer (s : Store) (r : TransferReq) : Store :=
  (spaceTransfer s r.telegramId r.space_name r.direction r.amount_cents
    r.happened_at r.note).2

/-- Serialized (one-at-a-time) execution of a request list. -/
def runTransfers (s : Store) (rs : List TransferReq) : Store :=
  rs.foldl applyTransfer s

/-! ## Generic fold and sum lemmas -/

/-- A left fold that only adds `f` of each element equals the initial value
plus the sum of the mapped list. -/
theorem foldl_add_eq {α : Type} (f : α → Int) (l : List α) :
    ∀ a : Int, l.foldl (fun acc t => acc + f t) a = a + (l.map f).sum := by
  induction l with
  | nil => intro a; simp
  | cons x xs ih => intro a; simp [ih (a + f x), add_assoc]

/-- `sumTransfers` as a `map`/`sum` expression. -/
theorem sumTransfers_eq (ts : List SpaceTransferRec) (sid : Nat) (dir : String) :
    sumTransfers ts sid dir =
      ((ts.filter (fun t => t.space_id == sid && t.direction == dir)).map
        (fun t => t.amount_cents)).sum := by
  simpa using foldl_add_eq (fun t : SpaceTransferRec => t.amount_cents)
    (ts.filter (fun t => t.space_id == sid && t.direction == dir)) 0

/-- Appending one transfer changes a per-direction sum by that transfer's
amount exactly when it matches the space and direction. -/
theorem sumTransfers_append (ts : List SpaceTransferRec) (tr : SpaceTransferRec)
    (sid : Nat) (dir : String) :
    sumTransfers (ts ++ [tr]) sid dir =
      sumTransfers ts sid dir +
        (if tr.space_id = sid ∧ tr.direction = dir then tr.amount_cents else 0) := by
  by_cases h : tr.space_id = sid ∧ tr.direction = dir
  · obtain ⟨h1, h2⟩ := h
    simp [sumTransfers_eq, List.filter_append, h1, h2]
  · have hb : (tr.space_id == sid && tr.direction == dir) = false := by
      rcases not_and_or.mp h with h1 | h1 <;> simp [h1]
    simp [sumTransfers_eq, List.filter_append, hb, h]

/-- Appending one transfer moves a space's derived balance by the signed
amount (positive for `to_space`, negative for `from_space`). -/
theorem spaceBalanceC_append (ts : List SpaceTransferRec) (tr : SpaceTransferRec)
    (sid : Nat) :
    spaceBalanceC (ts ++ [tr]) sid =
      spaceBalanceC ts sid +
        (if tr.space_id = sid then
          (if tr.direction = "to_space" then tr.amount_cents
           else if tr.direction = "from_space" then -tr.amount_cents else 0)
         else 0) := by
  by_cases hs : tr.space_id = sid
  · by_cases hd : tr.direction = "to_space"
    · simp [spaceBalanceC, sumTransfers_append, hs, hd]
      omega
    · by_cases hd2 : tr.direction = "from_space"
      · simp [spaceBalanceC, sumTransfers_append, hs, hd, hd2]
        omega
      · simp [spaceBalanceC, sumTransfers_append, hs, hd, hd2]
  · simp [spaceBalanceC, sumTransfers_append, hs]

/-- `get_or_create_space` never touches the transfer table. -/
theorem getOrCreateSpace_transfers (s : Store) (name : String) (now : PyDateTime) :
    (getOrCreateSpace s name now).2.transfers = s.transfers := by
  unfold getOrCreateSpace
  split <;> rfl

/-! ## Concrete fixtures used by witnesses and counterexamples -/

/-- A known active non-admin user. -/
def demoUser : UserRec := ⟨1, 10, "alice", "user", true⟩

/-- A fixed timestamp. -/
def t0 : PyDateTime := ⟨2026, 10, 12, 0⟩

/-- A store with one active user, one space named "vacation" holding 10000
cents from a single prior `to_space` transfer. -/
def demoStore : Store :=
  ⟨[demoUser], [], [], [⟨1, "vacation", t0⟩],
    [⟨1, 1, 10000, "to_space", t0, "", 10⟩], 1, 1, 2, 2⟩


/-! ## Helper lemmas for the claim proofs -/

/-- The only failure `get_or_create_category` can produce is a type conflict. -/
theorem getOrCreateCategory_error (s : Store) (name ty : String) (e : ApiError)
    (s1 : Store) (h : getOrCreateCategory s name ty = (.error e, s1)) :
    e = ApiError.TypeConflict := by
  unfold getOrCreateCategory at h
  split at h
  · split at h
    · cases h
    · cases h; rfl
  · cases h

/-- Applying one serialized transfer preserves nonnegativity of every space's
derived balance, provided the request's amount is nonnegative. -/
theorem applyTransfer_balance_nonneg (s : Store) (r : TransferReq)
    (hamt : 0 ≤ r.amount_cents)
    (hinv : ∀ sid, 0 ≤ spaceBalanceC s.transfers sid) :
    ∀ sid, 0 ≤ spaceBalanceC (applyTransfer s r).transfers sid := by
  intro sid
  unfold applyTransfer spaceTransfer
  cases hu : ensureUserAllowed s r.telegramId with
  | error e => exact hinv sid
  | ok u =>
    simp only
    split
    · exact hinv sid
    · next hd =>
      rcases hg : getOrCreateSpace s (pyStrip r.space_name) r.happened_at with ⟨sp, s1⟩
      have hs1 : s1.transfers = s.transfers := by
        simpa [hg] using getOrCreateSpace_transfers s (pyStrip r.space_name) r.happened_at
      have hdir : pyStrip r.direction = "to_space" ∨ pyStrip r.direction = "from_space" := by
        by_contra hcon
        push_neg at hcon
        exact hd (by simp [hcon.1, hcon.2])
      split
      · next hc =>
        simp only [hs1]
        exact hinv sid
      · next hc =>
        simp only [hs1, spaceBalanceC_append]
        rcases hdir with hto | hfrom
        · by_cases hsid : sp.id = sid
          · simp [hsid, hto]
            have := hinv sid
            omega
          · simp [hsid]
            exact hinv sid
        · have hne : pyStrip r.direction ≠ "to_space" := by
            rw [hfrom]; decide
          rw [hfrom] at hc
          simp only [beq_self_eq_true, Bool.true_and, decide_eq_true_eq, not_lt] at hc
          have hle : r.amount_cents ≤ spaceBalanceC s.transfers sp.id := hs1 ▸ hc
          by_cases hsid : sp.id = sid
          · simp [hsid, hfrom]
            have := hinv sid
            rw [hsid] at hle
            omega
          · simp [hsid]
            exact hinv sid

/-- Serialized execution preserves nonnegativity of all derived balances. -/
theorem runTransfers_balance_nonneg (rs : List TransferReq) :
    ∀ s : Store, (∀ r ∈ rs, 0 ≤ r.amount_cents) →
      (∀ sid, 0 ≤ spaceBalanceC s.transfers sid) →
      ∀ sid, 0 ≤ spaceBalanceC (runTransfers s rs).transfers sid := by
  induction rs with
  | nil => intro s _ hinv; exact hinv
  | cons r rs ih =>
    intro s hpos hinv
    simp only [runTransfers, List.foldl_cons]
    exact ih (applyTransfer s r) (fun x hx => hpos x (List.mem_cons_of_mem _ hx))
      (applyTransfer_balance_nonneg s r (hpos r (List.mem_cons_self _ _)) hinv)

/-- Resolution hit: an existing category of the right type is returned with no
store change. -/
theorem getOrCreateCategory_found (s : Store) (name ty : String) (c : CategoryRec)
    (hf : s.categories.find? (fun c => c.name == name) = some c) (hty : c.type = ty) :
    getOrCreateCategory s name ty = (.ok c, s) := by
  unfold getOrCreateCategory
  rw [hf]
  simp [hty]

/-- Resolution conflict: an existing category of a different type fails with
TypeConflict and changes nothing. -/
theorem getOrCreateCategory_conflict (s : Store) (name ty : String) (c : CategoryRec)
    (hf : s.categories.find? (fun c => c.name == name) = some c) (hty : c.type ≠ ty) :
    getOrCreateCategory s name ty = (.error .TypeConflict, s) := by
  unfold getOrCreateCategory
  rw [hf]
  simp [hty]

/-- Resolution miss: a new category row is appended. -/
theorem getOrCreateCategory_create (s : Store) (name ty : String)
    (hf : s.categories.find? (fun c => c.name == name) = none) :
    getOrCreateCategory s name ty =
      (.ok ⟨s.nextCategoryId, name, ty⟩,
        { s with
            categories := s.categories ++ [⟨s.nextCategoryId, name, ty⟩],
            nextCategoryId := s.nextCategoryId + 1 }) := by
  unfold getOrCreateCategory
  rw [hf]

/-- After a successful resolution the returned category is findable by name in
the resulting store, with the requested type. -/
theorem getOrCreateCategory_ok_inv (s : Store) (name ty : String)
    (c1 : CategoryRec) (s1 : Store)
    (h : getOrCreateCategory s name ty = (.ok c1, s1)) :
    c1.type = ty ∧ s1.categories.find? (fun c => c.name == name) = some c1 := by
  unfold getOrCreateCategory at h
  cases hf : s.categories.find? (fun c => c.name == name) with
  | some c =>
    rw [hf] at h
    by_cases hty : c.type = ty
    · simp only [hty, beq_self_eq_true, if_true] at h
      rw [Prod.mk.injEq] at h
      obtain ⟨h1, h2⟩ := h
      injection h1 with h1
      subst h1
      subst h2
      exact ⟨hty, hf⟩
    · simp only [beq_eq_false_iff_ne.mpr hty, Bool.false_eq_true, if_false] at h
      rw [Prod.mk.injEq] at h
      exact absurd h.1 (by simp)
  | none =>
    rw [hf] at h
    rw [Prod.mk.injEq] at h
    obtain ⟨h1, h2⟩ := h
    injection h1 with h1
    subst h1
    subst h2
    refine ⟨rfl, ?_⟩
    rw [List.find?_append, hf]
    simp
/-- Resolution hit for spaces: no store change. -/
theorem getOrCreateSpace_found (s : Store) (name : String) (now : PyDateTime)
    (sp : SpaceRec) (hf : s.spaces.find? (fun x => x.name == name) = some sp) :
    getOrCreateSpace s name now = (sp, s) := by
  unfold getOrCreateSpace
  rw [hf]

/-- After space resolution the returned space is findable by name. -/
theorem getOrCreateSpace_ok_inv (s : Store) (name : String) (now : PyDateTime)
    (sp1 : SpaceRec) (s1 : Store) (h : getOrCreateSpace s name now = (sp1, s1)) :
    s1.spaces.find? (fun x => x.name == name) = some sp1 := by
  unfold getOrCreateSpace at h
  cases hf : s.spaces.find? (fun x => x.name == name) with
  | some sp =>
    rw [hf] at h
    rw [Prod.mk.injEq] at h
    obtain ⟨h1, h2⟩ := h
    subst h1
    subst h2
    exact hf
  | none =>
    rw [hf] at h
    rw [Prod.mk.injEq] at h
    obtain ⟨h1, h2⟩ := h
    subst h1
    subst h2
    rw [List.find?_append, hf]
    simp

/-- Income/expense cent sums of transactions in a period, written as the spec
formula (sum over the matching transactions). -/
def sumTxCents (s : Store) (st en : PyDateTime) (ty : String) : Int :=
  ((s.transactions.filter
      (fun t => t.type == ty && inPeriodB st en t.happened_at)).map
    (fun t => t.amount_cents)).sum

/-- Per-direction cent sums of space transfers in a period, written as the
spec formula. -/
def sumTrCents (s : Store) (st en : PyDateTime) (dir : String) : Int :=
  ((s.transfers.filter
      (fun t => t.direction == dir && inPeriodB st en t.happened_at)).map
    (fun t => t.amount_cents)).sum

/-- The single accumulation loop of `summary` computes the income sum in the
first component and the non-income sum in the second. -/
theorem foldl_income_expense (l : List TransactionRec) :
    ∀ p : Int × Int,
      l.foldl (fun (q : Int × Int) t =>
          if t.type == "income" then (q.1 + t.amount_cents, q.2)
          else (q.1, q.2 + t.amount_cents)) p =
        (p.1 + ((l.filter (fun t => t.type == "income")).map
            (fun t => t.amount_cents)).sum,
         p.2 + ((l.filter (fun t => !(t.type == "income"))).map
            (fun t => t.amount_cents)).sum) := by
  induction l with
  | nil => intro p; simp
  | cons x xs ih =>
    intro p
    rw [List.foldl_cons, ih]
    by_cases hx : x.type = "income"
    · simp [hx, add_assoc]
    · simp [hx, add_assoc]

/-- Every Gregorian month has at least 28 days. -/
theorem daysInMonth_ge (y m : Nat) : 28 ≤ daysInMonth y m := by
  unfold daysInMonth
  split
  · split <;> omega
  · split <;> omega

/-- Every Gregorian month has at most 31 days. -/
theorem daysInMonth_le (y m : Nat) : daysInMonth y m ≤ 31 := by
  unfold daysInMonth
  split
  · split <;> omega
  · split <;> omega

/-- Day addition that stays inside the current month just moves the day. -/
theorem addDays_within (n : Nat) : ∀ d : PyDateTime,
    d.day + n ≤ daysInMonth d.year d.month →
    addDays n d = { d with day := d.day + n } := by
  induction n with
  | zero => intro d h; simp [addDays]
  | succ n ih =>
    intro d h
    have hlt : d.day < daysInMonth d.year d.month := by omega
    show addDays n (nextDay d) = _
    rw [nextDay, if_pos hlt, ih]
    · have harith : d.day + 1 + n = d.day + (n + 1) := by omega
      simp [harith]
    · simpa using by omega

/-- Day addition splits along sums of day counts. -/
theorem addDays_add (a b : Nat) : ∀ d, addDays (a + b) d = addDays b (addDays a d) := by
  induction a with
  | zero => intro d; simp [addDays]
  | succ a ih =>
    intro d
    have harith : a + 1 + b = (a + b) + 1 := by omega
    rw [harith]
    show addDays (a + b) (nextDay d) = addDays b (addDays (a + 1) d)
    rw [ih (nextDay d)]
    rfl

/-- Adding 32 days to the first instant of a month and then replacing the day
by 1 yields the first instant of the next month. -/
theorem addDays32_firstOfMonth (y m : Nat) (_h1 : 1 ≤ m) (_h2 : m ≤ 12) :
    { addDays 32 (⟨y, m, 1, 0⟩ : PyDateTime) with day := 1 } =
      (if m < 12 then (⟨y, m + 1, 1, 0⟩ : PyDateTime) else ⟨y + 1, 1, 1, 0⟩) := by
  have h28 : 28 ≤ daysInMonth y m := daysInMonth_ge y m
  have h31 : daysInMonth y m ≤ 31 := daysInMonth_le y m
  have hsplit : 32 = (daysInMonth y m - 1) + (33 - daysInMonth y m) := by omega
  rw [hsplit, addDays_add]
  have hstep1 : addDays (daysInMonth y m - 1) (⟨y, m, 1, 0⟩ : PyDateTime) =
      ⟨y, m, daysInMonth y m, 0⟩ := by
    rw [addDays_within]
    · have harith : 1 + (daysInMonth y m - 1) = daysInMonth y m := by omega
      simp [harith]
    · show 1 + (daysInMonth y m - 1) ≤ daysInMonth y m
      omega
  rw [hstep1]
  have h33 : 33 - daysInMonth y m = (32 - daysInMonth y m) + 1 := by omega
  rw [h33]
  show { addDays (32 - daysInMonth y m) (nextDay ⟨y, m, daysInMonth y m, 0⟩) with
      day := 1 } = _
  have hnd : nextDay (⟨y, m, daysInMonth y m, 0⟩ : PyDateTime) =
      (if m < 12 then (⟨y, m + 1, 1, 0⟩ : PyDateTime) else ⟨y + 1, 1, 1, 0⟩) := by
    unfold nextDay
    rw [if_neg (by simp)]
  rw [hnd]
  by_cases hm : m < 12
  · rw [if_pos hm, addDays_within]
    show 1 + (32 - daysInMonth y m) ≤ daysInMonth y (m + 1)
    have := daysInMonth_ge y (m + 1)
    omega
  · rw [if_neg hm, addDays_within]
    show 1 + (32 - daysInMonth y m) ≤ daysInMonth (y + 1) 1
    have := daysInMonth_ge (y + 1) 1
    omega

/-! ## Additional fixtures for the witnesses -/

/-- A second active non-admin user who created none of the fixture rows. -/
def demoUser2 : UserRec := ⟨2, 20, "bob", "user", true⟩

/-- First instant of October 2026. -/
def st0 : PyDateTime := ⟨2026, 10, 1, 0⟩

/-- First instant of November 2026. -/
def en0 : PyDateTime := ⟨2026, 11, 1, 0⟩

/-- An income transaction of 150000 cents created by user 10. -/
def demoTx1 : TransactionRec := ⟨1, "income", 150000, 1, t0, "", 10⟩

/-- An expense transaction of 4250 cents created by user 10. -/
def demoTx2 : TransactionRec := ⟨2, "expense", 4250, 2, t0, "", 10⟩

/-- A store with two users, two categories, two transactions, one space and
one prior transfer of 10000 cents into it. -/
def demoStore2 : Store :=
  ⟨[demoUser, demoUser2],
    [⟨1, "salary", "income"⟩, ⟨2, "groceries", "expense"⟩],
    [demoTx1, demoTx2],
    [⟨1, "vacation", t0⟩],
    [⟨1, 1, 10000, "to_space", t0, "", 10⟩], 3, 3, 2, 2⟩

/-- A store with one user and no other rows. -/
def emptyStore : Store := ⟨[demoUser], [], [], [], [], 1, 1, 1, 1⟩

/-- A single serialized `to_space` request of 100 cents. -/
def demoReq : TransferReq := ⟨10, "vacation", "to_space", 100, t0, ""⟩

/-! ## Claim theorems -/

/-- Claim C1: for every space present in the store, `create_space_transfer`
with direction `from_space` (issued by a known active actor) fails with
InsufficientFunds exactly when the requested cent amount strictly exceeds the
space's all-time derived balance (sum of prior `to_space` amounts minus sum of
prior `from_space` amounts); on failure no transfer row is persisted and the
store is unchanged, and when the amount is at most the balance exactly one new
row is persisted and its identifier returned. -/
theorem space_transfer_insufficient_funds_iff (s : Store) (telegramId : Int)
    (u : UserRec) (sp : SpaceRec) (name note : String) (amt : Int) (t : PyDateTime)
    (hu : ensureUserAllowed s telegramId = .ok u)
    (hsp : s.spaces.find? (fun x => x.name == pyStrip name) = some sp) :
    (spaceBalanceC s.transfers sp.id < amt →
      spaceTransfer s telegramId name "from_space" amt t note =
        (.error .InsufficientFunds, s)) ∧
    (amt ≤ spaceBalanceC s.transfers sp.id →
      spaceTransfer s telegramId name "from_space" amt t note =
        (.ok s.nextTransferId,
          { s with
              transfers := s.transfers ++
                [⟨s.nextTransferId, sp.id, amt, "from_space", t, note, telegramId⟩],
              nextTransferId := s.nextTransferId + 1 })) := by
  have hstrip : pyStrip "from_space" = "from_space" := by decide
  have hget : getOrCreateSpace s (pyStrip name) t = (sp, s) := by
    unfold getOrCreateSpace; rw [hsp]
  unfold spaceTransfer
  rw [hu, hstrip, hget]
  constructor
  · intro hlt
    simp [hlt]
  · intro hle
    have hnc : ¬ (spaceBalanceC s.transfers sp.id < amt) := not_lt.mpr hle
    simp [hnc]

/-- Witness for C1 at a concrete store: withdrawing 20000 cents from a space
holding 10000 fails and changes nothing; withdrawing 400 cents succeeds and
appends exactly one row. -/
theorem space_transfer_insufficient_witness :
    ensureUserAllowed demoStore 10 = .ok demoUser ∧
    demoStore.spaces.find? (fun x => x.name == pyStrip "vacation") =
      some ⟨1, "vacation", t0⟩ ∧
    spaceTransfer demoStore 10 "vacation" "from_space" 20000 t0 "" =
      (.error .InsufficientFunds, demoStore) ∧
    spaceTransfer demoStore 10 "vacation" "from_space" 400 t0 "" =
      (.ok demoStore.nextTransferId,
        { demoStore with
            transfers := demoStore.transfers ++
              [⟨demoStore.nextTransferId, 1, 400, "from_space", t0, "", 10⟩],
            nextTransferId := demoStore.nextTransferId + 1 }) :=
  ⟨by decide, by decide,
    (space_transfer_insufficient_funds_iff demoStore 10 demoUser ⟨1, "vacation", t0⟩
      "vacation" "" 20000 t0 (by decide) (by decide)).1 (by decide),
    (space_transfer_insufficient_funds_iff demoStore 10 demoUser ⟨1, "vacation", t0⟩
      "vacation" "" 400 t0 (by decide) (by decide)).2 (by decide)⟩

/-- Claim C2: starting from a store with no transfers, after any serialized
sequence of `create_space_transfer` requests (each requested amount a
nonnegative cent value, as produced by the positive-amount input boundary),
every space's derived balance equals the sum of its `to_space` amounts minus
the sum of its `from_space` amounts, and that balance is never negative. -/
theorem space_balance_invariant (s0 : Store) (rs : List TransferReq)
    (h0 : s0.transfers = [])
    (hpos : ∀ r ∈ rs, 0 ≤ r.amount_cents) :
    ∀ sid,
      spaceBalanceC (runTransfers s0 rs).transfers sid =
        (((runTransfers s0 rs).transfers.filter
            (fun t => t.space_id == sid && t.direction == "to_space")).map
          (fun t => t.amount_cents)).sum -
        (((runTransfers s0 rs).transfers.filter
            (fun t => t.space_id == sid && t.direction == "from_space")).map
          (fun t => t.amount_cents)).sum ∧
      0 ≤ spaceBalanceC (runTransfers s0 rs).transfers sid := by
  intro sid
  constructor
  · simp [spaceBalanceC, sumTransfers_eq]
  · apply runTransfers_balance_nonneg rs s0 hpos
    intro sid2
    simp [spaceBalanceC, sumTransfers, h0]

/-- Witness for C2: one serialized `to_space` request of 100 cents against an
initially transfer-free store. -/
theorem space_balance_invariant_witness :
    emptyStore.transfers = [] ∧ (∀ r ∈ [demoReq], 0 ≤ r.amount_cents) ∧
    (spaceBalanceC (runTransfers emptyStore [demoReq]).transfers 1 =
        (((runTransfers emptyStore [demoReq]).transfers.filter
            (fun t => t.space_id == 1 && t.direction == "to_space")).map
          (fun t => t.amount_cents)).sum -
        (((runTransfers emptyStore [demoReq]).transfers.filter
            (fun t => t.space_id == 1 && t.direction == "from_space")).map
          (fun t => t.amount_cents)).sum ∧
      0 ≤ spaceBalanceC (runTransfers emptyStore [demoReq]).transfers 1) :=
  ⟨rfl, by decide, space_balance_invariant emptyStore [demoReq] rfl (by decide) 1⟩

/-- Claim C3: for every store whose transactions carry valid types and every
explicitly given period `[start, end)`, the cash balance returned by
`summarize` equals (income cents minus expense cents in the period) minus the
period's `to_space` cents plus its `from_space` cents, where membership in the
period is `start <= happened_at < end`. -/
theorem summary_cash_balance_formula (s : Store) (telegramId : Int)
    (u : UserRec) (st en now : PyDateTime)
    (hu : ensureUserAllowed s telegramId = .ok u)
    (hty : ∀ t ∈ s.transactions, t.type = "income" ∨ t.type = "expense") :
    ∃ out, summary s telegramId (some st) (some en) now = .ok out ∧
      out.start = st ∧ out.endD = en ∧
      out.cash_balance_c =
        (sumTxCents s st en "income" - sumTxCents s st en "expense")
          - sumTrCents s st en "to_space" + sumTrCents s st en "from_space" := by
  unfold summary
  rw [hu]
  simp only [summaryPeriod]
  refine ⟨_, rfl, rfl, rfl, ?_⟩
  show ((s.transactions.filter (fun t => inPeriodB st en t.happened_at)).foldl
      (fun (q : Int × Int) t =>
        if t.type == "income" then (q.1 + t.amount_cents, q.2)
        else (q.1, q.2 + t.amount_cents)) (0, 0)).1 -
    ((s.transactions.filter (fun t => inPeriodB st en t.happened_at)).foldl
      (fun (q : Int × Int) t =>
        if t.type == "income" then (q.1 + t.amount_cents, q.2)
        else (q.1, q.2 + t.amount_cents)) (0, 0)).2 -
    _ + _ = _
  rw [foldl_income_expense]
  have hexp : (s.transactions.filter
        (fun t => inPeriodB st en t.happened_at)).filter
        (fun t => !(t.type == "income")) =
      (s.transactions.filter
        (fun t => inPeriodB st en t.happened_at)).filter
        (fun t => t.type == "expense") := by
    apply List.filter_congr
    intro t ht
    rcases hty t (List.mem_of_mem_filter ht) with h | h <;> simp [h]
  rw [hexp, List.filter_filter, List.filter_filter, List.filter_filter,
    List.filter_filter, foldl_add_eq, foldl_add_eq]
  simp only [sumTxCents, sumTrCents]
  ring

/-- Witness for C3 on a concrete store and the October 2026 period. -/
theorem summary_cash_balance_witness :
    ensureUserAllowed demoStore2 10 = .ok demoUser ∧
    (∀ t ∈ demoStore2.transactions, t.type = "income" ∨ t.type = "expense") ∧
    (∃ out, summary demoStore2 10 (some st0) (some en0) t0 = .ok out ∧
      out.start = st0 ∧ out.endD = en0 ∧
      out.cash_balance_c =
        (sumTxCents demoStore2 st0 en0 "income" -
            sumTxCents demoStore2 st0 en0 "expense")
          - sumTrCents demoStore2 st0 en0 "to_space"
          + sumTrCents demoStore2 st0 en0 "from_space") :=
  ⟨by decide, by decide,
    summary_cash_balance_formula demoStore2 10 demoUser st0 en0 t0
      (by decide) (by decide)⟩

/-- Claim C4: for every store and every queried period (explicit or
defaulted), `summarize` returns `total_assets` equal to the period-scoped cash
balance plus `spaces_total`, where `spaces_total` sums every space's all-time
derived balance over all transfers regardless of the period. -/
theorem summary_total_assets_formula (s : Store) (telegramId : Int)
    (u : UserRec) (startQ endQ : Option PyDateTime) (now : PyDateTime)
    (hu : ensureUserAllowed s telegramId = .ok u) :
    ∃ out, summary s telegramId startQ endQ now = .ok out ∧
      out.spaces_total_c =
        (s.spaces.map (fun sp =>
          ((s.transfers.filter
              (fun t => t.space_id == sp.id && t.direction == "to_space")).map
            (fun t => t.amount_cents)).sum -
          ((s.transfers.filter
              (fun t => t.space_id == sp.id && t.direction == "from_space")).map
            (fun t => t.amount_cents)).sum)).sum ∧
      out.total_assets_c = out.cash_balance_c + out.spaces_total_c := by
  unfold summary
  rw [hu]
  rcases hperiod : summaryPeriod now startQ endQ with ⟨st, en⟩
  refine ⟨_, rfl, ?_, rfl⟩
  show s.spaces.foldl (fun acc sp => acc + spaceBalanceC s.transfers sp.id) 0 = _
  rw [foldl_add_eq]
  simp only [zero_add]
  have hfun : (fun sp : SpaceRec => spaceBalanceC s.transfers sp.id) =
      (fun sp : SpaceRec =>
        ((s.transfers.filter
            (fun t => t.space_id == sp.id && t.direction == "to_space")).map
          (fun t => t.amount_cents)).sum -
        ((s.transfers.filter
            (fun t => t.space_id == sp.id && t.direction == "from_space")).map
          (fun t => t.amount_cents)).sum) := by
    funext sp
    rw [spaceBalanceC, sumTransfers_eq, sumTransfers_eq]
  rw [hfun]

/-- Witness for C4 on a concrete store and period. -/
theorem summary_total_assets_witness :
    ensureUserAllowed demoStore2 10 = .ok demoUser ∧
    (∃ out, summary demoStore2 10 (some st0) (some en0) t0 = .ok out ∧
      out.spaces_total_c =
        (demoStore2.spaces.map (fun sp =>
          ((demoStore2.transfers.filter
              (fun t => t.space_id == sp.id && t.direction == "to_space")).map
            (fun t => t.amount_cents)).sum -
          ((demoStore2.transfers.filter
              (fun t => t.space_id == sp.id && t.direction == "from_space")).map
            (fun t => t.amount_cents)).sum)).sum ∧
      out.total_assets_c = out.cash_balance_c + out.spaces_total_c) :=
  ⟨by decide,
    summary_total_assets_formula demoStore2 10 demoUser (some st0) (some en0) t0
      (by decide)⟩

/-- Claim C5: the category/space resolver is idempotent: a successful
resolution followed by a second call with the same name (and type) returns
the same entity and leaves the store unchanged, a row being persisted only on
the creation path; and a category call with an existing name but a different
type fails with TypeConflict and creates nothing. -/
theorem resolver_idempotent (s : Store) (name ty : String) :
    (∀ c1 s1, getOrCreateCategory s name ty = (.ok c1, s1) →
        getOrCreateCategory s1 name ty = (.ok c1, s1)) ∧
    (s.categories.find? (fun c => c.name == name) = none →
        getOrCreateCategory s name ty =
          (.ok ⟨s.nextCategoryId, name, ty⟩,
            { s with
                categories := s.categories ++ [⟨s.nextCategoryId, name, ty⟩],
                nextCategoryId := s.nextCategoryId + 1 })) ∧
    (∀ c, s.categories.find? (fun c => c.name == name) = some c → c.type ≠ ty →
        getOrCreateCategory s name ty = (.error .TypeConflict, s)) ∧
    (∀ now sp1 s1, getOrCreateSpace s name now = (sp1, s1) →
        ∀ now2, getOrCreateSpace s1 name now2 = (sp1, s1)) := by
  refine ⟨?_, ?_, ?_, ?_⟩
  · intro c1 s1 h
    obtain ⟨hty, hf⟩ := getOrCreateCategory_ok_inv s name ty c1 s1 h
    exact getOrCreateCategory_found s1 name ty c1 hf hty
  · intro hf
    exact getOrCreateCategory_create s name ty hf
  · intro c hf hty
    exact getOrCreateCategory_conflict s name ty c hf hty
  · intro now sp1 s1 h now2
    exact getOrCreateSpace_found s1 name now2 sp1 (getOrCreateSpace_ok_inv s name now sp1 s1 h)

/-- Witness for C5: repeat lookup of "salary", fresh creation of "rent",
type-conflicting reuse of "salary", and repeat lookup of space "vacation". -/
theorem resolver_idempotent_witness :
    getOrCreateCategory demoStore2 "salary" "income" =
      (.ok ⟨1, "salary", "income"⟩, demoStore2) ∧
    getOrCreateCategory demoStore2 "rent" "expense" =
      (.ok ⟨demoStore2.nextCategoryId, "rent", "expense"⟩,
        { demoStore2 with
            categories := demoStore2.categories ++
              [⟨demoStore2.nextCategoryId, "rent", "expense"⟩],
            nextCategoryId := demoStore2.nextCategoryId + 1 }) ∧
    getOrCreateCategory demoStore2 "salary" "expense" =
      (.error .TypeConflict, demoStore2) ∧
    getOrCreateSpace demoStore2 "vacation" t0 = (⟨1, "vacation", t0⟩, demoStore2) :=
  ⟨(resolver_idempotent demoStore2 "salary" "income").1
      ⟨1, "salary", "income"⟩ demoStore2 (by decide),
    (resolver_idempotent demoStore2 "rent" "expense").2.1 (by decide),
    (resolver_idempotent demoStore2 "salary" "expense").2.2.1
      ⟨1, "salary", "income"⟩ (by decide) (by decide),
    (resolver_idempotent demoStore2 "vacation" "x").2.2.2 t0
      ⟨1, "vacation", t0⟩ demoStore2 (by decide) t0⟩

/-- Claim C6: for every store of validly-typed transactions all lying in the
queried period, the income and expense totals returned by `summarize` equal
exactly the integer-cent sums of those transactions' amounts; the
accumulation is performed on integer cents with no floating-point addition on
any running total. -/
theorem summary_totals_exact_cents (s : Store) (telegramId : Int)
    (u : UserRec) (st en now : PyDateTime)
    (hu : ensureUserAllowed s telegramId = .ok u)
    (hin : ∀ t ∈ s.transactions, inPeriodB st en t.happened_at = true)
    (hty : ∀ t ∈ s.transactions, t.type = "income" ∨ t.type = "expense") :
    ∃ out, summary s telegramId (some st) (some en) now = .ok out ∧
      out.income_total_c =
        ((s.transactions.filter (fun t => t.type == "income")).map
          (fun t => t.amount_cents)).sum ∧
      out.expense_total_c =
        ((s.transactions.filter (fun t => t.type == "expense")).map
          (fun t => t.amount_cents)).sum := by
  unfold summary
  rw [hu]
  simp only [summaryPeriod]
  have hall : s.transactions.filter (fun t => inPeriodB st en t.happened_at) =
      s.transactions := List.filter_eq_self.mpr hin
  refine ⟨_, rfl, ?_, ?_⟩
  · show ((s.transactions.filter (fun t => inPeriodB st en t.happened_at)).foldl
        (fun (q : Int × Int) t =>
          if t.type == "income" then (q.1 + t.amount_cents, q.2)
          else (q.1, q.2 + t.amount_cents)) (0, 0)).1 = _
    rw [hall, foldl_income_expense]
    simp
  · show ((s.transactions.filter (fun t => inPeriodB st en t.happened_at)).foldl
        (fun (q : Int × Int) t =>
          if t.type == "income" then (q.1 + t.amount_cents, q.2)
          else (q.1, q.2 + t.amount_cents)) (0, 0)).2 = _
    rw [hall, foldl_income_expense]
    have hexp : s.transactions.filter (fun t => !(t.type == "income")) =
        s.transactions.filter (fun t => t.type == "expense") := by
      apply List.filter_congr
      intro t ht
      rcases hty t ht with h | h <;> simp [h]
    rw [hexp]
    simp

/-- Witness for C6 on a concrete store whose transactions all lie in the
October 2026 period. -/
theorem summary_totals_exact_witness :
    ensureUserAllowed demoStore2 10 = .ok demoUser ∧
    (∀ t ∈ demoStore2.transactions, inPeriodB st0 en0 t.happened_at = true) ∧
    (∀ t ∈ demoStore2.transactions, t.type = "income" ∨ t.type = "expense") ∧
    (∃ out, summary demoStore2 10 (some st0) (some en0) t0 = .ok out ∧
      out.income_total_c =
        ((demoStore2.transactions.filter (fun t => t.type == "income")).map
          (fun t => t.amount_cents)).sum ∧
      out.expense_total_c =
        ((demoStore2.transactions.filter (fun t => t.type == "expense")).map
          (fun t => t.amount_cents)).sum) :=
  ⟨by decide, by decide, by decide,
    summary_totals_exact_cents demoStore2 10 demoUser st0 en0 t0
      (by decide) (by decide) (by decide)⟩

/-- Claim C7: for a known active actor, `delete_transaction` fails with
NotFound when no transaction has the requested identifier; when one exists it
fails with Forbidden and leaves the store unchanged unless the actor is an
admin or the transaction's creator, and otherwise deletes exactly that row
with no effect on any other entity. -/
theorem delete_transaction_access_rules (s : Store) (telegramId : Int)
    (u : UserRec) (txId : Nat)
    (hu : ensureUserAllowed s telegramId = .ok u) :
    (s.transactions.find? (fun t => t.id == txId) = none →
        deleteTransaction s txId telegramId = (.error .NotFound, s)) ∧
    (∀ tx, s.transactions.find? (fun t => t.id == txId) = some tx →
      (u.role ≠ "admin" → tx.created_by_telegram_id ≠ telegramId →
          deleteTransaction s txId telegramId = (.error .Forbidden, s)) ∧
      ((u.role = "admin" ∨ tx.created_by_telegram_id = telegramId) →
          deleteTransaction s txId telegramId =
            (.ok (), { s with
                transactions := s.transactions.filter (fun t => t.id != txId) }) ∧
          tx ∈ s.transactions ∧
          (∀ t ∈ s.transactions, t.id ≠ txId →
            t ∈ (deleteTransaction s txId telegramId).2.transactions) ∧
          (∀ t ∈ (deleteTransaction s txId telegramId).2.transactions,
            t ∈ s.transactions ∧ t.id ≠ txId) ∧
          (deleteTransaction s txId telegramId).2.users = s.users ∧
          (deleteTransaction s txId telegramId).2.categories = s.categories ∧
          (deleteTransaction s txId telegramId).2.spaces = s.spaces ∧
          (deleteTransaction s txId telegramId).2.transfers = s.transfers)) := by
  constructor
  · intro hf
    unfold deleteTransaction
    rw [hu, hf]
  · intro tx hf
    have hdel : (u.role = "admin" ∨ tx.created_by_telegram_id = telegramId) →
        deleteTransaction s txId telegramId =
          (.ok (), { s with
              transactions := s.transactions.filter (fun t => t.id != txId) }) := by
      intro hperm
      unfold deleteTransaction
      rw [hu, hf]
      have hcond : (u.role != "admin" && tx.created_by_telegram_id != telegramId) = false := by
        rcases hperm with h | h <;> simp [h]
      simp [hcond]
    constructor
    · intro hrole hcreator
      unfold deleteTransaction
      rw [hu, hf]
      have hcond : (u.role != "admin" && tx.created_by_telegram_id != telegramId) = true := by
        simp [hrole, hcreator]
      simp [hcond]
    · intro hperm
      have hd := hdel hperm
      refine ⟨hd, List.mem_of_find?_eq_some hf, ?_, ?_, ?_, ?_, ?_, ?_⟩
      · intro t ht htid
        rw [hd]
        simp only [List.mem_filter]
        exact ⟨ht, by simp [htid]⟩
      · intro t ht
        rw [hd] at ht
        simp only [List.mem_filter, bne_iff_ne, ne_eq] at ht
        exact ⟨ht.1, ht.2⟩
      · rw [hd]
      · rw [hd]
      · rw [hd]
      · rw [hd]

/-- Witness for C7: missing id 99 is NotFound; non-creator user 20 is
Forbidden; creator user 10 deletes exactly transaction 1. -/
theorem delete_transaction_witness :
    ensureUserAllowed demoStore2 10 = .ok demoUser ∧
    deleteTransaction demoStore2 99 10 = (.error .NotFound, demoStore2) ∧
    deleteTransaction demoStore2 1 20 = (.error .Forbidden, demoStore2) ∧
    deleteTransaction demoStore2 1 10 =
      (.ok (), { demoStore2 with
          transactions := demoStore2.transactions.filter (fun t => t.id != 1) }) :=
  ⟨by decide,
    (delete_transaction_access_rules demoStore2 10 demoUser 99 (by decide)).1
      (by decide),
    ((delete_transaction_access_rules demoStore2 20 demoUser2 1 (by decide)).2
      demoTx1 (by decide)).1 (by decide) (by decide),
    (((delete_transaction_access_rules demoStore2 10 demoUser 1 (by decide)).2
      demoTx1 (by decide)).2 (Or.inr (by decide))).1⟩

/-- Claim C8: whenever either bound of a `summarize` call is missing, both
bounds are replaced by the current UTC calendar month: the start becomes the
first instant of the current month and the end the first instant of the next
month (the exclusive upper bound of the scan). -/
theorem summary_default_period_current_month (s : Store) (telegramId : Int)
    (u : UserRec) (startQ endQ : Option PyDateTime) (now : PyDateTime)
    (hu : ensureUserAllowed s telegramId = .ok u)
    (hm1 : 1 ≤ now.month) (hm2 : now.month ≤ 12)
    (hmiss : startQ = none ∨ endQ = none) :
    ∃ out, summary s telegramId startQ endQ now = .ok out ∧
      out.start = ⟨now.year, now.month, 1, 0⟩ ∧
      out.endD = (if now.month < 12 then
          (⟨now.year, now.month + 1, 1, 0⟩ : PyDateTime)
        else ⟨now.year + 1, 1, 1, 0⟩) := by
  have hrepl : ({ now with day := 1, tod := 0 } : PyDateTime) =
      ⟨now.year, now.month, 1, 0⟩ := rfl
  have hper : summaryPeriod now startQ endQ =
      (⟨now.year, now.month, 1, 0⟩,
        (if now.month < 12 then (⟨now.year, now.month + 1, 1, 0⟩ : PyDateTime)
         else ⟨now.year + 1, 1, 1, 0⟩)) := by
    rcases hmiss with h | h
    · subst h
      cases endQ <;>
        simp [summaryPeriod, hrepl,
          addDays32_firstOfMonth now.year now.month hm1 hm2]
    · subst h
      cases startQ <;>
        simp [summaryPeriod, hrepl,
          addDays32_firstOfMonth now.year now.month hm1 hm2]
  unfold summary
  rw [hu, hper]
  exact ⟨_, rfl, rfl, rfl⟩

/-- Witness for C8 with both bounds missing at a October 2026 current time. -/
theorem summary_default_period_witness :
    ensureUserAllowed demoStore2 10 = .ok demoUser ∧
    (∃ out, summary demoStore2 10 none none t0 = .ok out ∧
      out.start = ⟨t0.year, t0.month, 1, 0⟩ ∧
      out.endD = (if t0.month < 12 then
          (⟨t0.year, t0.month + 1, 1, 0⟩ : PyDateTime)
        else ⟨t0.year + 1, 1, 1, 0⟩)) :=
  ⟨by decide,
    summary_default_period_current_month demoStore2 10 demoUser none none t0
      (by decide) (by decide) (by decide) (Or.inl rfl)⟩

/-- Claim C10: admin authentication fails closed: with an unset or empty
server-side admin token, the admin upsert_user operation rejects every
request as Unauthorized whatever credential the caller supplies (including an
empty one), and leaves the store unchanged. -/
theorem admin_auth_fails_closed (cred : Option String) (s : Store)
    (telegramId : Int) (name : String) (isActive : Bool) (role : String) :
    adminUpsertUser "" cred s telegramId name isActive role =
      (.error .Unauthorized, s) := by
  simp [adminUpsertUser, requireAdmin]

/-- Counterexample to C9 as stated: the claim says a direction differing only
in letter case from `from_space` is accepted after trim-and-lowercase
normalisation, but the code only trims, so `"From_Space"` is rejected with
InvalidInput even though its trimmed lowercase form is `from_space` and the
space holds ample funds for the withdrawal. -/
theorem direction_lowercase_counterexample :
    (spaceTransfer demoStore 10 "vacation" "From_Space" 5 t0 "").1 =
        .error .InvalidInput ∧
      pyLower (pyStrip "From_Space") = "from_space" ∧
      (5 : Int) ≤ spaceBalanceC demoStore.transfers 1 := by
  refine ⟨by decide, by decide, by decide⟩

/-- Claim C9 (amended): `create_space_transfer` normalizes the supplied
direction by trimming only (no lowercasing) and fails with InvalidInput
exactly when the trimmed direction is neither `to_space` nor `from_space`
(so a direction differing only in letter case is rejected); and
`create_transaction` accepts a type exactly when its trimmed, lowercased
form is `income` or `expense`. -/
theorem direction_trim_only_validation (s : Store) (telegramId : Int)
    (u : UserRec) (dirRaw tyRaw name note : String) (amt : Int)
    (t : PyDateTime) (hu : ensureUserAllowed s telegramId = .ok u) :
    ((spaceTransfer s telegramId name dirRaw amt t note).1 =
        .error .InvalidInput ↔
      (pyStrip dirRaw ≠ "to_space" ∧ pyStrip dirRaw ≠ "from_space")) ∧
    ((createTransaction s telegramId tyRaw amt name t note).1 =
        .error .InvalidInput ↔
      (pyLower (pyStrip tyRaw) ≠ "income" ∧ pyLower (pyStrip tyRaw) ≠ "expense")) := by
  constructor
  · unfold spaceTransfer
    rw [hu]
    by_cases hd : pyStrip dirRaw = "to_space" ∨ pyStrip dirRaw = "from_space"
    · have hb : (pyStrip dirRaw != "to_space" && pyStrip dirRaw != "from_space") = false := by
        rcases hd with h | h <;> simp [h]
      simp only [hb, Bool.false_eq_true, if_false]
      rcases hgs : getOrCreateSpace s (pyStrip name) t with ⟨sp, s1⟩
      simp only [hgs]
      constructor
      · intro h
        exfalso
        split at h <;> simp_all
      · intro hcontra
        rcases hd with h | h
        · exact absurd h hcontra.1
        · exact absurd h hcontra.2
    · push_neg at hd
      have hb : (pyStrip dirRaw != "to_space" && pyStrip dirRaw != "from_space") = true := by
        simp [hd.1, hd.2]
      simp only [hb, if_true]
      simp [hd.1, hd.2]
  · unfold createTransaction
    rw [hu]
    by_cases hd : pyLower (pyStrip tyRaw) = "income" ∨ pyLower (pyStrip tyRaw) = "expense"
    · have hb : (pyLower (pyStrip tyRaw) != "income" && pyLower (pyStrip tyRaw) != "expense") = false := by
        rcases hd with h | h <;> simp [h]
      simp only [hb, Bool.false_eq_true, if_false]
      rcases hgc : getOrCreateCategory s (pyStrip name) (pyLower (pyStrip tyRaw)) with ⟨r, s1⟩
      cases r with
      | error e =>
        have he : e = ApiError.TypeConflict := getOrCreateCategory_error _ _ _ _ _ hgc
        subst he
        constructor
        · intro h; exact absurd h (by simp)
        · intro hcontra
          rcases hd with h | h
          · exact absurd h hcontra.1
          · exact absurd h hcontra.2
      | ok cat =>
        constructor
        · intro h; exact absurd h (by simp)
        · intro hcontra
          rcases hd with h | h
          · exact absurd h hcontra.1
          · exact absurd h hcontra.2
    · push_neg at hd
      have hb : (pyLower (pyStrip tyRaw) != "income" && pyLower (pyStrip tyRaw) != "expense") = true := by
        simp [hd.1, hd.2]
      simp only [hb, if_true]
      simp [hd.1, hd.2]

/-- Witness for the amended C9 at concrete inputs: direction `to_space` is
accepted, and type `Income` normalises to `income` and is accepted. -/
theorem direction_trim_only_witness :
    ensureUserAllowed demoStore 10 = .ok demoUser ∧
    (((spaceTransfer demoStore 10 "vacation" "to_space" 5 t0 "").1 =
        .error .InvalidInput ↔
      (pyStrip "to_space" ≠ "to_space" ∧ pyStrip "to_space" ≠ "from_space")) ∧
    ((createTransaction demoStore 10 "Income" 5 "vacation" t0 "").1 =
        .error .InvalidInput ↔
      (pyLower (pyStrip "Income") ≠ "income" ∧
        pyLower (pyStrip "Income") ≠ "expense"))) :=
  ⟨by decide,
    direction_trim_only_validation demoStore 10 demoUser "to_space" "Income"
      "vacation" "" 5 t0 (by decide)⟩
